import Mathlib

/-!
Verification of the `validation` package of `mabhi256/tasker`: the
multi-source request binder (`CustomBinder.Bind`, `BindParams`, `BindBody`,
`validateJSONStructure`, `bindValue`, `parseUUID`, `createFieldError`) and
the downstream `BindAndValidate` merger.

Shallow embedding conventions:
* Go struct types are lists of `GoField` (name, tags, type, settability);
  a live struct instance is a `List (GoField × GoValue)`.
* Machine integers are `Int`/`Nat`; `reflect.Value.SetInt`/`SetUint`
  narrowing is explicit two's-complement wrapping (the platform is 64-bit,
  so `int`/`uint` have width 64).
* Float values are carried as the accepted raw text (no claim inspects
  float numerics, only parse success/failure); Go hex-float and
  underscored literal forms of `strconv.ParseFloat` are outside the model.
* The echo context is the four raw key/value tables plus the body.
  The request body is summarized by its JSON parse status (`Body`):
  `encoding/json` syntax itself is external stdlib.  Go `map[string]any`
  iteration order is not fixed across runs, so functions that range over
  the parsed body map take the iteration order as an explicit `iter`
  parameter, constrained to be a permutation of the map entries.
-/

namespace Tasker

/-- Model of the Go `reflect.Kind`/type of one struct field, restricted to
the shapes the binder dispatches on. `array n elem` is a fixed-size Go
array (so `[16]byte` is `array 16 uint8`); `other` covers kinds the binder
treats as unsupported. -/
inductive GoType where
  | string
  | int
  | int8
  | int16
  | int32
  | int64
  | uint
  | uint8
  | uint16
  | uint32
  | uint64
  | float32
  | float64
  | bool
  | array (n : Nat) (elem : GoType)
  | slice (elem : GoType)
  | ptr (elem : GoType)
  | structT
  | mapT
  | other (name : String)
deriving Repr, DecidableEq

/-- True for the Go kinds `reflect.Int` through `reflect.Int64`. -/
def GoType.isIntKind : GoType → Bool
  | .int | .int8 | .int16 | .int32 | .int64 => true
  | _ => false

/-- True for the Go kinds `reflect.Uint` through `reflect.Uint64`. -/
def GoType.isUintKind : GoType → Bool
  | .uint | .uint8 | .uint16 | .uint32 | .uint64 => true
  | _ => false

/-- True for `reflect.Float32` and `reflect.Float64`. -/
def GoType.isFloatKind : GoType → Bool
  | .float32 | .float64 => true
  | _ => false

/-- Bit width of a signed integer kind; the platform `int` is 64-bit. -/
def GoType.intWidth : GoType → Nat
  | .int8 => 8
  | .int16 => 16
  | .int32 => 32
  | _ => 64

/-- Bit width of an unsigned integer kind; the platform `uint` is 64-bit. -/
def GoType.uintWidth : GoType → Nat
  | .uint8 => 8
  | .uint16 => 16
  | .uint32 => 32
  | _ => 64

/-- JSON value as produced by `encoding/json` unmarshalling into `any`:
strings, numbers, booleans, arrays, objects, null.  Numbers are modelled
as integers (`float64` in Go); no claim inspects fractional values, and
the structural validator only looks at the coarse class of a value. -/
inductive JValue where
  | jnull
  | jbool (b : Bool)
  | jnum (n : Int)
  | jstr (s : String)
  | jarr (elems : List JValue)
  | jobj (pairs : List (String × JValue))
deriving Repr

/-- Value stored in one struct field.  `arrayV` holds the bytes of a
fixed-size byte array (the `[16]byte` identifier); `compositeV` coarsely
stores the JSON value decoded into a slice/array/struct/map field (no
claim inspects the interior of composite fields); `zeroOther` is the zero
value of kinds the binder never populates. -/
inductive GoValue where
  | stringV (s : String)
  | intV (n : Int)
  | uintV (n : Nat)
  | floatV (text : String)
  | boolV (b : Bool)
  | arrayV (bytes : List Nat)
  | ptrV (inner : Option GoValue)
  | compositeV (j : JValue)
  | zeroOther
deriving Repr

/-- Go zero value of a field type. -/
def GoType.zero : GoType → GoValue
  | .string => .stringV ""
  | .int | .int8 | .int16 | .int32 | .int64 => .intV 0
  | .uint | .uint8 | .uint16 | .uint32 | .uint64 => .uintV 0
  | .float32 | .float64 => .floatV "0"
  | .bool => .boolV false
  | .array n _ => .arrayV (List.replicate n 0)
  | .ptr _ => .ptrV none
  | _ => .zeroOther

/-- One struct field: Go field name, struct tag table, declared type, and
whether `reflect` can set it (exported). -/
structure GoField where
  name : String
  tags : List (String × String)
  ty : GoType
  canSet : Bool
deriving Repr

/-- Model of `reflect.StructTag.Get`: value of the first tag with the
given key, `""` when absent. -/
def tagGet (f : GoField) (key : String) : String :=
  match f.tags.find? (fun p => p.1 == key) with
  | some p => p.2
  | none => ""

/-- Portion of a tag value before the first comma, as in
`strings.Split(tag, ",")[0]`. -/
def headBeforeComma (s : String) : String :=
  String.mk (s.toList.takeWhile (fun c => c ≠ ','))

/-- ASCII lower-casing, the effect of `strings.ToLower` on the ASCII
names appearing in this subsystem. -/
def goToLower (s : String) : String :=
  String.mk (s.toList.map Char.toLower)

/-- Model of `errs.BindError`: one message plus five optional location
selectors, of which the producing code populates at most one. -/
structure BindError where
  field : Option String := none
  query : Option String := none
  param : Option String := none
  form : Option String := none
  header : Option String := none
  error : String
deriving Repr, DecidableEq

/-- Model of the `*echo.HTTPError` values the binder aborts with. -/
structure HTTPErrorM where
  status : Nat
  message : String
deriving Repr, DecidableEq

/-! ### Go strconv parsing primitives -/

/-- Decimal digit value. -/
def digitVal (c : Char) : Option Nat :=
  if '0' ≤ c ∧ c ≤ '9' then some (c.toNat - '0'.toNat) else none

/-- Hexadecimal digit value (both cases), the digits accepted by the
`%x` scanning verb and by hex decoding. -/
def hexVal (c : Char) : Option Nat :=
  if '0' ≤ c ∧ c ≤ '9' then some (c.toNat - '0'.toNat)
  else if 'a' ≤ c ∧ c ≤ 'f' then some (c.toNat - 'a'.toNat + 10)
  else if 'A' ≤ c ∧ c ≤ 'F' then some (c.toNat - 'A'.toNat + 10)
  else none

/-- Value of a non-empty all-decimal digit string; `none` otherwise. -/
def digitsVal : List Char → Option Nat
  | [] => none
  | l => l.foldl (fun acc c =>
      match acc, digitVal c with
      | some v, some d => some (v * 10 + d)
      | _, _ => none) (some 0)

/-- Model of `strconv.ParseUint(s, 10, 64)`: digits only (no sign, no
underscores with an explicit base), value below `2^64`. -/
def goParseUint64 (s : String) : Option Nat :=
  match digitsVal s.toList with
  | some v => if v < 2 ^ 64 then some v else none
  | none => none

/-- Model of `strconv.ParseInt(s, 10, 64)`: optional sign, digits, value
within the `int64` range; anything else (including overflow) errors. -/
def goParseInt64 (s : String) : Option Int :=
  match s.toList with
  | [] => none
  | c :: rest =>
    let signed : Bool × List Char :=
      if c = '-' then (true, rest)
      else if c = '+' then (false, rest)
      else (false, c :: rest)
    match digitsVal signed.2 with
    | none => none
    | some v =>
      if signed.1 then
        if v ≤ 2 ^ 63 then some (-(v : Int)) else none
      else
        if v ≤ 2 ^ 63 - 1 then some (v : Int) else none

/-- Model of `strconv.ParseBool`: the exact accepted spellings. -/
def goParseBool (s : String) : Option Bool :=
  if s = "1" ∨ s = "t" ∨ s = "T" ∨ s = "TRUE" ∨ s = "true" ∨ s = "True" then some true
  else if s = "0" ∨ s = "f" ∨ s = "F" ∨ s = "FALSE" ∨ s = "false" ∨ s = "False" then some false
  else none

/-- Exponent suffix of a Go float literal: empty, or `e`/`E`, optional
sign, one or more digits. -/
def floatExpOk : List Char → Bool
  | [] => true
  | c :: rest =>
    (c = 'e' ∨ c = 'E') &&
      (match rest with
       | '+' :: ds => ds ≠ [] && ds.all (fun d => (digitVal d).isSome)
       | '-' :: ds => ds ≠ [] && ds.all (fun d => (digitVal d).isSome)
       | ds => ds ≠ [] && ds.all (fun d => (digitVal d).isSome))

/-- Unsigned decimal mantissa with optional fraction and exponent:
`digits [. digits]`, `digits.`, or `.digits`, then an exponent part. -/
def floatMantOk (l : List Char) : Bool :=
  let intPart := l.takeWhile (fun c => (digitVal c).isSome)
  let rest := l.drop intPart.length
  match rest with
  | '.' :: rest2 =>
    let fracPart := rest2.takeWhile (fun c => (digitVal c).isSome)
    let rest3 := rest2.drop fracPart.length
    (intPart ≠ [] ∨ fracPart ≠ []) && floatExpOk rest3
  | _ => intPart ≠ [] && floatExpOk rest

/-- Syntactic acceptance of `strconv.ParseFloat(s, 64)`: the special
`inf`/`infinity` (optionally signed) and `nan` spellings case-insensitively,
or a signed decimal literal.  Hex-float and underscored literal forms are
not modelled; no claim exercises them. -/
def goParseFloatOk (s : String) : Bool :=
  if goToLower s = "nan" then true
  else
    let l := s.toList
    let body := match l with
      | '+' :: r => r
      | '-' :: r => r
      | r => r
    let low := goToLower (String.mk body)
    if low = "inf" ∨ low = "infinity" then true
    else floatMantOk body

/-! ### parseUUID and the fmt.Sscanf %02x pair scan -/

/-- Space characters of the `fmt` scanner's space table (the ASCII part;
the names in this subsystem are ASCII). -/
def fmtIsSpace (c : Char) : Bool :=
  c = ' ' ∨ c = '\t' ∨ c = '\n' ∨ c = '\x0b' ∨ c = '\x0c' ∨ c = '\r'

/-- Model of `fmt.Sscanf(p, "%02x", &b)` on a two-character string `p`
scanning into a `uint8`.  The verb skips leading scan-space (the skipped
rune counts against the width of 2), then requires at least one hex digit
and consumes the maximal run of hex digits within the width; a trailing
non-hex character is left unconsumed and `Sscanf` ignores it, so pairs
such as `"0g"` scan successfully to `0`. -/
def scanByteHexPair (a b : Char) : Option Nat :=
  if fmtIsSpace a then
    if fmtIsSpace b then none
    else hexVal b
  else
    match hexVal a with
    | none => none
    | some va =>
      match hexVal b with
      | some vb => some (va * 16 + vb)
      | none => some va

/-- Scan consecutive character pairs with `scanByteHexPair`, failing at
the first pair that fails (the Go loop returns the scan error). -/
def scanBytePairs : List Char → Option (List Nat)
  | [] => some []
  | a :: b :: rest =>
    match scanByteHexPair a b with
    | none => none
    | some v =>
      match scanBytePairs rest with
      | none => none
      | some vs => some (v :: vs)
  | _ :: [] => none

/-- Model of `parseUUID`: remove every hyphen (`strings.ReplaceAll`),
require exactly 32 remaining characters, then scan the 16 two-character
pairs in order with `%02x`. -/
def parseUUID (s : String) : Option (List Nat) :=
  let t := s.toList.filter (fun c => c ≠ '-')
  if t.length = 32 then scanBytePairs t else none

/-! ### bindValue (scalar coercion) -/

/-- Two's-complement wrap of an `int64` value to a signed width, the
effect of `reflect.Value.SetInt` storing into a narrower signed kind. -/
def truncSigned (w : Nat) (v : Int) : Int :=
  (v + 2 ^ (w - 1)) % (2 ^ w : Int) - 2 ^ (w - 1)

/-- Coercion of the signed-integer branch of `bindValue`: parse with
`strconv.ParseInt(raw, 10, 64)`, then `SetInt` narrows to the declared
width. -/
def bindIntKind (w : Nat) (raw : String) : Except String GoValue :=
  match goParseInt64 raw with
  | none => .error "must be a valid integer"
  | some v => .ok (.intV (truncSigned w v))

/-- Coercion of the unsigned-integer branch of `bindValue`: parse with
`strconv.ParseUint(raw, 10, 64)`, then `SetUint` narrows to the declared
width. -/
def bindUintKind (w : Nat) (raw : String) : Except String GoValue :=
  match goParseUint64 raw with
  | none => .error "must be a valid unsigned integer"
  | some v => .ok (.uintV (v % 2 ^ w))

/-- Model of `bindValue`: convert a raw string into a typed field value.
Branch order follows the source: 16-element array (UUID), string,
pointer-to-string, signed ints, unsigned ints, floats, bool, generic
pointer (recursive into a fresh inner value), else unsupported.  On error
nothing is stored (the caller keeps the previous field value). -/
def bindValue : GoType → String → Except String GoValue
  | .array n _, raw =>
    if n = 16 then
      match parseUUID raw with
      | none => .error "invalid UUID format"
      | some bytes => .ok (.arrayV bytes)
    else .error "unsupported type for binding"
  | .string, raw => .ok (.stringV raw)
  | .ptr .string, raw => .ok (.ptrV (some (.stringV raw)))
  | .int, raw => bindIntKind 64 raw
  | .int8, raw => bindIntKind 8 raw
  | .int16, raw => bindIntKind 16 raw
  | .int32, raw => bindIntKind 32 raw
  | .int64, raw => bindIntKind 64 raw
  | .uint, raw => bindUintKind 64 raw
  | .uint8, raw => bindUintKind 8 raw
  | .uint16, raw => bindUintKind 16 raw
  | .uint32, raw => bindUintKind 32 raw
  | .uint64, raw => bindUintKind 64 raw
  | .float32, raw =>
    if goParseFloatOk raw then .ok (.floatV raw) else .error "must be a valid number"
  | .float64, raw =>
    if goParseFloatOk raw then .ok (.floatV raw) else .error "must be a valid number"
  | .bool, raw =>
    match goParseBool raw with
    | none => .error "must be a valid boolean"
    | some b => .ok (.boolV b)
  | .ptr t, raw =>
    match bindValue t raw with
    | .error e => .error e
    | .ok v => .ok (.ptrV (some v))
  | _, _ => .error "unsupported type for binding"

/-- Model of `createFieldError`: lower-case the field name and populate
the single selector matching the source. -/
def createFieldError (fieldName message source : String) : BindError :=
  let low := goToLower fieldName
  if source = "param" then { param := some low, error := message }
  else if source = "query" then { query := some low, error := message }
  else if source = "form" then { form := some low, error := message }
  else if source = "header" then { header := some low, error := message }
  else if source = "json" then { field := some low, error := message }
  else { error := message }

/-! ### Echo context and source resolution -/

/-- Status of the raw request body bytes under the external
`encoding/json` parser: empty (zero bytes), syntactically invalid JSON
(carrying the parser's error message), or well-formed with the given
parsed value. -/
inductive Body where
  | empty
  | malformed (errMsg : String)
  | wellFormed (v : JValue)
deriving Repr

/-- Model of the echo request context: the four raw key/value tables the
resolver consults and the body.  `c.FormValue` is modelled as lookup in
the request's form data (the surrounding HTTP layer's tables are the
spec's five input sources). -/
structure EchoCtx where
  pathParams : List (String × String)
  queryParams : List (String × String)
  formValues : List (String × String)
  headers : List (String × String)
  body : Body
deriving Repr

/-- First value for a key, `""` when absent — the behaviour of
`c.Param`, `c.QueryParam` and `c.FormValue` for missing names. -/
def lookupD (m : List (String × String)) (k : String) : String :=
  match m.find? (fun p => p.1 == k) with
  | some p => p.2
  | none => ""

/-- Header lookup: `http.Header.Get` canonicalizes the key, which for the
token keys used here amounts to case-insensitive matching. -/
def lookupHeader (m : List (String × String)) (k : String) : String :=
  match m.find? (fun p => goToLower p.1 == goToLower k) with
  | some p => p.2
  | none => ""

/-- Model of `CustomBinder.getParamValue`: read the field's tag for the
source, treat `""` and `"-"` as absent, take the name before the first
comma, and look it up in the matching request table. -/
def getParamValue (c : EchoCtx) (f : GoField) (source : String) : String :=
  let tag := tagGet f source
  if tag = "" ∨ tag = "-" then ""
  else
    let tagName := headBeforeComma tag
    if source = "param" then lookupD c.pathParams tagName
    else if source = "query" then lookupD c.queryParams tagName
    else if source = "form" then lookupD c.formValues tagName
    else if source = "header" then lookupHeader c.headers tagName
    else ""

/-- The fixed source priority order of `BindParams`. -/
def sourcesOrder : List String := ["param", "query", "form", "header"]

/-- First source (in priority order) yielding a non-empty raw string for
the field, together with that string; `none` when every source yields
the empty string — the `for … break` loop of `BindParams`. -/
def resolveSource (c : EchoCtx) (f : GoField) : Option (String × String) :=
  sourcesOrder.findSome? (fun s =>
    let v := getParamValue c f s
    if v = "" then none else some (s, v))

/-- One iteration of the `BindParams` field loop: skip unsettable fields;
otherwise resolve a raw value and coerce it.  Returns the (possibly
updated) field entry and the error recorded for it, if any.  A coercion
failure leaves the field's value untouched. -/
def bindOneParamField (c : EchoCtx) (fv : GoField × GoValue) :
    (GoField × GoValue) × Option BindError :=
  if fv.1.canSet then
    match resolveSource c fv.1 with
    | none => (fv, none)
    | some (src, raw) =>
      match bindValue fv.1.ty raw with
      | .ok v => ((fv.1, v), none)
      | .error msg => (fv, some (createFieldError fv.1.name msg src))
  else (fv, none)

/-- Model of `CustomBinder.BindParams`: bind every field independently
from path/query/form/header and collect the per-field errors in field
declaration order. -/
def BindParams (c : EchoCtx) (inst : List (GoField × GoValue)) :
    List (GoField × GoValue) × List BindError :=
  (inst.map (fun fv => (bindOneParamField c fv).1),
   inst.filterMap (fun fv => (bindOneParamField c fv).2))

/-! ### JSON structural validation -/

/-- Runtime class of a JSON value, as `getJSONType` reports it (the input
always comes from `json.Unmarshal` into `any`, so the `default: unknown`
arm of the source is unreachable here). -/
def getJSONType : JValue → String
  | .jstr _ => "string"
  | .jnum _ => "number"
  | .jbool _ => "boolean"
  | .jarr _ => "array"
  | .jobj _ => "object"
  | .jnull => "null"

/-- Name `reflect.Type.String()` would print for a type, used by the
`default` arm of `getTypeString`. -/
def goTypeName : GoType → String
  | .string => "string"
  | .int => "int"
  | .int8 => "int8"
  | .int16 => "int16"
  | .int32 => "int32"
  | .int64 => "int64"
  | .uint => "uint"
  | .uint8 => "uint8"
  | .uint16 => "uint16"
  | .uint32 => "uint32"
  | .uint64 => "uint64"
  | .float32 => "float32"
  | .float64 => "float64"
  | .bool => "bool"
  | .array n e => "[" ++ toString n ++ "]" ++ goTypeName e
  | .slice e => "[]" ++ goTypeName e
  | .ptr e => "*" ++ goTypeName e
  | .structT => "struct"
  | .mapT => "map"
  | .other n => n

/-- Model of `getTypeString`: coarse expected-type name of a declared
field kind. -/
def getTypeString : GoType → String
  | .string => "string"
  | .int | .int8 | .int16 | .int32 | .int64
  | .uint | .uint8 | .uint16 | .uint32 | .uint64
  | .float32 | .float64 => "number"
  | .bool => "boolean"
  | .slice _ => "array"
  | .array _ _ => "array"
  | .structT => "object"
  | .mapT => "object"
  | t => goTypeName t

/-- Model of `isTypeCompatible`: compare the coarse class of the incoming
JSON value against the declared kind; kinds outside the five classes are
compatible with everything. -/
def isTypeCompatible (t : GoType) (v : JValue) : Bool :=
  match t with
  | .string => getJSONType v == "string"
  | .int | .int8 | .int16 | .int32 | .int64
  | .uint | .uint8 | .uint16 | .uint32 | .uint64
  | .float32 | .float64 => getJSONType v == "number"
  | .bool => getJSONType v == "boolean"
  | .slice _ => getJSONType v == "array"
  | .array _ _ => getJSONType v == "array"
  | .structT => getJSONType v == "object"
  | .mapT => getJSONType v == "object"
  | _ => true

/-- Go map assignment `m[k] = v` on an association list: overwrite the
existing entry for `k` or append a new one. -/
def mapAssign (m : List (String × GoType)) (k : String) (v : GoType) :
    List (String × GoType) :=
  if m.any (fun p => p.1 == k) then
    m.map (fun p => if p.1 == k then (k, v) else p)
  else m ++ [(k, v)]

/-- Map lookup on the association list built with `mapAssign`. -/
def mapLookup (m : List (String × GoType)) (k : String) : Option GoType :=
  (m.find? (fun p => p.1 == k)).map (fun p => p.2)

/-- Model of `CustomBinder.getJSONFields`: the JSON-bound fields (no
param/query/form/header tag, a usable `json` tag) mapped to their
declared type with one level of pointer indirection unwrapped. -/
def getJSONFields (fields : List GoField) : List (String × GoType) :=
  fields.foldl (fun acc f =>
    if tagGet f "param" ≠ "" ∨ tagGet f "query" ≠ "" ∨
       tagGet f "form" ≠ "" ∨ tagGet f "header" ≠ "" then acc
    else
      let jsonTag := tagGet f "json"
      if jsonTag = "" ∨ jsonTag = "-" then acc
      else
        let fieldName := headBeforeComma jsonTag
        let fieldType := match f.ty with
          | .ptr e => e
          | t => t
        mapAssign acc fieldName fieldType) []

/-- Structural check of one incoming JSON object entry: `none` when the
key is known and its value class matches; otherwise the error the source
constructs directly (note the key is stored verbatim, not lower-cased). -/
def structCheck (validFields : List (String × GoType)) (kv : String × JValue) :
    Option BindError :=
  match mapLookup validFields kv.1 with
  | none => some { field := some kv.1, error := "unknown field" }
  | some t =>
    if isTypeCompatible t kv.2 then none
    else some { field := some kv.1,
                error := "expected " ++ getTypeString t ++ " but got " ++ getJSONType kv.2 }

/-- Model of `CustomBinder.validateJSONStructure`, ranging over the
parsed body map in the iteration order `iter` (Go map range order is not
fixed across runs). -/
def validateJSONStructure (fields : List GoField) (iter : List (String × JValue)) :
    List BindError :=
  iter.filterMap (structCheck (getJSONFields fields))

/-! ### Best-effort body decode (`json.Unmarshal(bodyBytes, i)`)

The decode after structural validation is the external `encoding/json`
struct decoder; its error is discarded by the source, so only its effect
on the target matters.  It is modelled per encoding/json semantics: keys
match a field's effective JSON name exactly, else case-insensitively;
`null` sets a pointer to nil and is a no-op on every other kind; scalars
decode on matching class (numbers range-checked against the declared
width); composite kinds coarsely store the JSON value. -/

/-- Last-wins deduplication of JSON object entries, the contents of the
`map[string]any` produced by unmarshalling an object with (possibly)
duplicate keys. -/
def dedupLastWins (pairs : List (String × JValue)) : List (String × JValue) :=
  pairs.foldl (fun m kv =>
    if m.any (fun p => p.1 == kv.1) then
      m.map (fun p => if p.1 == kv.1 then kv else p)
    else m ++ [kv]) []

/-- Value string of the `json.UnmarshalTypeError` for a top-level value
that cannot decode into `map[string]any`. -/
def jsonValueName : JValue → String
  | .jstr _ => "string"
  | .jnum _ => "number"
  | .jbool _ => "bool"
  | .jarr _ => "array"
  | .jobj _ => "object"
  | .jnull => "null"

/-- Model of `json.Unmarshal(bodyBytes, &rawMap)` on a well-formed body:
an object fills the map (last key wins); `null` leaves the map nil (so
ranging over it visits nothing); any other top-level value is an
`UnmarshalTypeError`. -/
def unmarshalRawMap : JValue → Except String (List (String × JValue))
  | .jobj pairs => .ok (dedupLastWins pairs)
  | .jnull => .ok []
  | v => .error ("json: cannot unmarshal " ++ jsonValueName v ++
      " into Go value of type map[string]interface \x7b\x7d")

/-- Effective JSON name of a field for the struct decoder: the tag name
when a usable `json` tag is present (falling back to the field name when
the tag name part is empty), the field name when there is no tag, and
`none` for `json:"-"` (never decoded). -/
def effJsonName (f : GoField) : Option String :=
  let t := tagGet f "json"
  if t = "-" then none
  else if t = "" then some f.name
  else
    let n := headBeforeComma t
    if n = "" then some f.name else some n

/-- Index of the field an object key decodes into: the first settable
field whose effective JSON name matches exactly, otherwise the first
settable field matching case-insensitively. -/
def findFieldIdx (fields : List GoField) (k : String) : Option Nat :=
  match fields.findIdx? (fun f => f.canSet && effJsonName f == some k) with
  | some i => some i
  | none =>
    fields.findIdx? (fun f =>
      f.canSet && (effJsonName f).map goToLower == some (goToLower k))

/-- Whether an integer fits the signed width `w`. -/
def signedFits (w : Nat) (n : Int) : Bool :=
  decide (-(2 ^ (w - 1) : Int) ≤ n) && decide (n < (2 ^ (w - 1) : Int))

/-- Decode of one JSON value into one declared kind; `none` means the
decoder skips the field (type mismatch, out-of-range number, or a `null`
no-op on a non-pointer kind). -/
def decodeJSON : GoType → JValue → Option GoValue
  | .ptr _, .jnull => some (.ptrV none)
  | .ptr t, v => (decodeJSON t v).map (fun x => .ptrV (some x))
  | .string, .jstr s => some (.stringV s)
  | .bool, .jbool b => some (.boolV b)
  | .int, .jnum n => if signedFits 64 n then some (.intV n) else none
  | .int8, .jnum n => if signedFits 8 n then some (.intV n) else none
  | .int16, .jnum n => if signedFits 16 n then some (.intV n) else none
  | .int32, .jnum n => if signedFits 32 n then some (.intV n) else none
  | .int64, .jnum n => if signedFits 64 n then some (.intV n) else none
  | .uint, .jnum n => if 0 ≤ n ∧ n < 2 ^ 64 then some (.uintV n.toNat) else none
  | .uint8, .jnum n => if 0 ≤ n ∧ n < 2 ^ 8 then some (.uintV n.toNat) else none
  | .uint16, .jnum n => if 0 ≤ n ∧ n < 2 ^ 16 then some (.uintV n.toNat) else none
  | .uint32, .jnum n => if 0 ≤ n ∧ n < 2 ^ 32 then some (.uintV n.toNat) else none
  | .uint64, .jnum n => if 0 ≤ n ∧ n < 2 ^ 64 then some (.uintV n.toNat) else none
  | .float32, .jnum n => some (.floatV (toString n))
  | .float64, .jnum n => some (.floatV (toString n))
  | .slice _, .jarr xs => some (.compositeV (.jarr xs))
  | .array _ _, .jarr xs => some (.compositeV (.jarr xs))
  | .structT, .jobj ps => some (.compositeV (.jobj ps))
  | .mapT, .jobj ps => some (.compositeV (.jobj ps))
  | _, _ => none

/-- Final value of the field at absolute index `i` after the decoder has
processed the object entries in document order: each entry whose key maps
to `i` either overwrites the running value or is skipped. -/
def decodeFieldFinal (fields : List GoField) (pairs : List (String × JValue))
    (i : Nat) (ty : GoType) (cur : GoValue) : GoValue :=
  pairs.foldl (fun acc kv =>
    if findFieldIdx fields kv.1 = some i then
      match decodeJSON ty kv.2 with
      | some v => v
      | none => acc
    else acc) cur

/-- Apply `decodeFieldFinal` to every field, tracking absolute indices. -/
def decodeInst (fields : List GoField) (pairs : List (String × JValue)) :
    Nat → List (GoField × GoValue) → List (GoField × GoValue)
  | _, [] => []
  | i, fv :: rest =>
    (fv.1, decodeFieldFinal fields pairs i fv.1.ty fv.2) ::
      decodeInst fields pairs (i + 1) rest

/-- Model of the best-effort `json.Unmarshal(bodyBytes, i)` into the
struct: an object body decodes entry by entry in document order; `null`
(and the unreachable non-object cases) leave the struct untouched. -/
def decodeBody (inst : List (GoField × GoValue)) : JValue → List (GoField × GoValue)
  | .jobj pairs => decodeInst (inst.map (fun fv => fv.1)) pairs 0 inst
  | _ => inst

/-! ### BindBody, Bind, BindAndValidate -/

/-- Model of `CustomBinder.BindBody`: empty body short-circuits with no
errors; a body that does not unmarshal into a JSON object map aborts with
a 400 `invalid JSON` transport error; otherwise run structural validation
over the map (in iteration order `iter`) and best-effort decode the body
into the target.  (The `io.ReadAll` failure path concerns the transport
stream, outside this model.) -/
def BindBody (c : EchoCtx) (iter : List (String × JValue))
    (inst : List (GoField × GoValue)) :
    Except HTTPErrorM (List (GoField × GoValue) × List BindError) :=
  match c.body with
  | .empty => .ok (inst, [])
  | .malformed msg => .error ⟨400, "invalid JSON: " ++ msg⟩
  | .wellFormed v =>
    match unmarshalRawMap v with
    | .error msg => .error ⟨400, "invalid JSON: " ++ msg⟩
    | .ok _ =>
      let errors := validateJSONStructure (inst.map (fun fv => fv.1)) iter
      .ok (decodeBody inst v, errors)

/-- Model of `CustomBinder.Bind`: bind sourced fields, then the JSON
body; a body abort is returned as-is, otherwise the collected errors are
`paramErrs ++ bodyErrs` (stored in the context under `binding_errors`).
`iter` is the body map iteration order of this run. -/
def Bind (c : EchoCtx) (iter : List (String × JValue))
    (inst : List (GoField × GoValue)) :
    Except HTTPErrorM (List (GoField × GoValue) × List BindError) :=
  match BindBody c iter (BindParams c inst).1 with
  | .error e => .error e
  | .ok res => .ok (res.1, (BindParams c inst).2 ++ res.2)

/-- Fresh target instance with every field at its zero value. -/
def zeroInst (fields : List GoField) : List (GoField × GoValue) :=
  fields.map (fun f => (f, f.ty.zero))

/-- One `validator.FieldError` as `BindAndValidate` consumes it:
`Field()` is the Go struct field name, plus the rule tag, tag parameter,
and whether the field's reflected kind is `string`. -/
structure RuleViol where
  fieldName : String
  tag : String
  param : String
  kindIsString : Bool
deriving Repr, DecidableEq

/-- Model of `formatValidationMessage`. -/
def formatValidationMessage (e : RuleViol) : String :=
  if e.tag = "required" then "is required"
  else if e.tag = "min" then
    if e.kindIsString then "must be at least " ++ e.param ++ " characters"
    else "must be at least " ++ e.param
  else if e.tag = "max" then
    if e.kindIsString then "must not exceed " ++ e.param ++ " characters"
    else "must not exceed " ++ e.param
  else if e.tag = "oneof" then "must be one of: " ++ e.param
  else if e.tag = "email" then "must be a valid email address"
  else if e.tag = "e164" then "must be a valid phone number with country code"
  else if e.tag = "uuid" then "must be a valid UUID"
  else if e.tag = "uuidList" then "must be a comma-separated list of valid UUIDs"
  else if e.param ≠ "" then goToLower e.fieldName ++ ": " ++ e.tag ++ ":" ++ e.param
  else goToLower e.fieldName ++ ": " ++ e.tag

/-- Model of `getFieldSource`: locate the field by Go name and classify
its originating source by tag presence, defaulting to `json`. -/
def getFieldSource (fields : List GoField) (fieldName : String) : String :=
  match fields.find? (fun f => f.name == fieldName) with
  | some f =>
    if tagGet f "param" ≠ "" then "param"
    else if tagGet f "query" ≠ "" then "query"
    else if tagGet f "form" ≠ "" then "form"
    else if tagGet f "header" ≠ "" then "header"
    else "json"
  | none => "json"

/-- Names recorded in the `fieldsWithBindingErrors` set for one binding
error: every populated selector contributes its stored name. -/
def namesOf (e : BindError) : List String :=
  [e.param, e.query, e.field, e.form, e.header].filterMap id

/-- The `fieldsWithBindingErrors` set over a whole error list. -/
def fieldsWithBindingErrors (errs : List BindError) : List String :=
  (errs.map namesOf).flatten

/-- Model of `BindAndValidate`: run the custom binder (HTTP aborts are
returned immediately), then append, for each rule violation whose
lower-cased field name is not in the binding-error name set, a
`createFieldError` at the field's source.  The merged list is what the
caller surfaces (as a 422 when non-empty). -/
def BindAndValidate (c : EchoCtx) (iter : List (String × JValue))
    (fields : List GoField) (viols : List RuleViol) :
    Except HTTPErrorM (List (GoField × GoValue) × List BindError) :=
  match Bind c iter (zeroInst fields) with
  | .error e => .error e
  | .ok out =>
    let bindingErrs := out.2
    let known := fieldsWithBindingErrors bindingErrs
    let ruleErrs := viols.filterMap (fun rv =>
      if known.contains (goToLower rv.fieldName) then none
      else some (createFieldError rv.fieldName (formatValidationMessage rv)
        (getFieldSource fields rv.fieldName)))
    .ok (out.1, bindingErrs ++ ruleErrs)

/-! ### Helper lemmas -/

/-- The field-loop body never changes the field descriptor, only the
stored value. -/
theorem bindOneParamField_fst (c : EchoCtx) (fv : GoField × GoValue) :
    ((bindOneParamField c fv).1).1 = fv.1 := by
  unfold bindOneParamField
  by_cases hcs : fv.1.canSet
  · simp only [hcs, if_true]
    cases hr : resolveSource c fv.1 with
    | none => rfl
    | some sr =>
      obtain ⟨src, raw⟩ := sr
      simp only [hr]
      cases hb : bindValue fv.1.ty raw <;> simp [hb]
  · simp [hcs]

/-- `BindParams` preserves the list of field descriptors. -/
theorem BindParams_fst_map (c : EchoCtx) (inst : List (GoField × GoValue)) :
    (BindParams c inst).1.map (fun fv => fv.1) = inst.map (fun fv => fv.1) := by
  simp only [BindParams, List.map_map]
  induction inst with
  | nil => rfl
  | cons fv t ih => simp only [List.map_cons, ih, Function.comp_apply, bindOneParamField_fst]

/-- A field for which the loop records an error keeps its previous entry
unchanged (the error branch does not write). -/
theorem bindOneParamField_error_keeps (c : EchoCtx) (fv : GoField × GoValue)
    (e : BindError) (h : (bindOneParamField c fv).2 = some e) :
    (bindOneParamField c fv).1 = fv := by
  unfold bindOneParamField at h ⊢
  by_cases hcs : fv.1.canSet
  · simp only [hcs, if_true] at h ⊢
    cases hr : resolveSource c fv.1 with
    | none => simp [hr]
    | some sr =>
      obtain ⟨src, raw⟩ := sr
      simp only [hr] at h ⊢
      cases hb : bindValue fv.1.ty raw <;> simp_all
  · simp [hcs]

/-! ### C1: error completeness -/

/-- Whether the `BindParams` loop records an error for this field on
this request. -/
def paramFails (c : EchoCtx) (fv : GoField × GoValue) : Bool :=
  ((bindOneParamField c fv).2).isSome

/-- Whether structural validation rejects this incoming JSON entry
(unknown key or coarse type mismatch). -/
def structFails (fields : List GoField) (kv : String × JValue) : Bool :=
  (structCheck (getJSONFields fields) kv).isSome

/-- C1: for independent binding failures in N distinct fields — coercion
failures on sourced fields plus structural failures on JSON keys — the
error list of a completed `Bind` has exactly N entries, one per failing
field/key; no failure short-circuits another (in the embedding each field
is bound by its own loop iteration, `bindOneParamField`, and each JSON
key is checked by its own `structCheck`, so the counts add). -/
theorem bind_error_completeness (c : EchoCtx) (iter : List (String × JValue))
    (inst : List (GoField × GoValue)) (out : List (GoField × GoValue) × List BindError)
    (h : Bind c iter inst = .ok out) :
    out.2.length = inst.countP (paramFails c) +
      (match c.body with
       | .wellFormed _ => iter.countP (structFails (inst.map (fun fv => fv.1)))
       | _ => 0) := by
  cases hb : c.body with
  | empty =>
    unfold Bind BindBody at h
    rw [hb] at h
    simp only [Except.ok.injEq] at h
    subst h
    simp only [List.append_nil, BindParams, List.length_filterMap_eq_countP]
    rfl
  | malformed msg =>
    unfold Bind BindBody at h
    rw [hb] at h
    simp at h
  | wellFormed v =>
    unfold Bind BindBody at h
    rw [hb] at h
    dsimp only [] at h
    cases hu : unmarshalRawMap v with
    | error msg =>
      rw [hu] at h
      simp at h
    | ok m =>
      rw [hu] at h
      simp only [Except.ok.injEq] at h
      subst h
      simp only [validateJSONStructure, List.length_append]
      rw [BindParams_fst_map]
      simp only [BindParams, List.length_filterMap_eq_countP]
      rfl

/-- C1 witness: a request with two failing sourced fields and two failing
JSON keys yields exactly four errors. -/
theorem bind_error_completeness_witness :
    Bind ⟨[("age", "abc")], [("big", "xyz")], [], [],
        .wellFormed (.jobj [("name", .jnum 1), ("zz", .jnum 2)])⟩
      [("name", .jnum 1), ("zz", .jnum 2)]
      (zeroInst [⟨"Age", [("param", "age")], .int, true⟩,
                 ⟨"Big", [("query", "big")], .bool, true⟩,
                 ⟨"Name", [("json", "name")], .string, true⟩]) =
      .ok ([(⟨"Age", [("param", "age")], .int, true⟩, .intV 0),
            (⟨"Big", [("query", "big")], .bool, true⟩, .boolV false),
            (⟨"Name", [("json", "name")], .string, true⟩, .stringV "")],
           [{ param := some "age", error := "must be a valid integer" },
            { query := some "big", error := "must be a valid boolean" },
            { field := some "name", error := "expected string but got number" },
            { field := some "zz", error := "unknown field" }]) ∧
    ([{ param := (some "age" : Option String), error := "must be a valid integer" },
      { query := some "big", error := "must be a valid boolean" },
      { field := some "name", error := "expected string but got number" },
      { field := some "zz", error := "unknown field" }] : List BindError).length = 2 + 2 := by
  constructor
  · rfl
  · have h := bind_error_completeness
      ⟨[("age", "abc")], [("big", "xyz")], [], [],
        .wellFormed (.jobj [("name", .jnum 1), ("zz", .jnum 2)])⟩
      [("name", .jnum 1), ("zz", .jnum 2)]
      (zeroInst [⟨"Age", [("param", "age")], .int, true⟩,
                 ⟨"Big", [("query", "big")], .bool, true⟩,
                 ⟨"Name", [("json", "name")], .string, true⟩]) _ rfl
    exact h.trans (by rfl)

/-! ### C2: source priority resolution -/

/-- C2: the resolver consults param, query, form, header in that fixed
order and binds the first non-empty raw string. In particular (i) when
the param source yields nothing and the query source yields a non-empty
value, the field resolves to the query value — regardless of what form
or header hold; (ii) a field whose tag names only one source (every
other source yields nothing) is resolved from that source or not at all;
(iii) the value bound into the field is the coercion of the resolved
(query) raw string. -/
theorem source_priority_resolution (c : EchoCtx) (f : GoField) :
    (getParamValue c f "param" = "" → getParamValue c f "query" ≠ "" →
      resolveSource c f = some ("query", getParamValue c f "query"))
  ∧ (∀ s ∈ sourcesOrder, (∀ t ∈ sourcesOrder, t ≠ s → getParamValue c f t = "") →
      resolveSource c f = none ∨ resolveSource c f = some (s, getParamValue c f s))
  ∧ (∀ v₀ v, f.canSet = true → getParamValue c f "param" = "" →
      getParamValue c f "query" ≠ "" →
      bindValue f.ty (getParamValue c f "query") = .ok v →
      (bindOneParamField c (f, v₀)).1 = (f, v)) := by
  refine ⟨?_, ?_, ?_⟩
  · intro hp hq
    simp [resolveSource, sourcesOrder, List.findSome?_cons, hp, hq]
  · intro s hs hothers
    rcases List.mem_cons.1 hs with rfl | hs
    · by_cases h1 : getParamValue c f "param" = ""
      · left
        have hq := hothers "query" (by simp [sourcesOrder]) (by simp)
        have hf := hothers "form" (by simp [sourcesOrder]) (by simp)
        have hh := hothers "header" (by simp [sourcesOrder]) (by simp)
        simp [resolveSource, sourcesOrder, List.findSome?_cons, h1, hq, hf, hh]
      · right
        simp [resolveSource, sourcesOrder, List.findSome?_cons, h1]
    rcases List.mem_cons.1 hs with rfl | hs
    · have hp := hothers "param" (by simp [sourcesOrder]) (by simp)
      by_cases h1 : getParamValue c f "query" = ""
      · left
        have hf := hothers "form" (by simp [sourcesOrder]) (by simp)
        have hh := hothers "header" (by simp [sourcesOrder]) (by simp)
        simp [resolveSource, sourcesOrder, List.findSome?_cons, hp, h1, hf, hh]
      · right
        simp [resolveSource, sourcesOrder, List.findSome?_cons, hp, h1]
    rcases List.mem_cons.1 hs with rfl | hs
    · have hp := hothers "param" (by simp [sourcesOrder]) (by simp)
      have hq := hothers "query" (by simp [sourcesOrder]) (by simp)
      by_cases h1 : getParamValue c f "form" = ""
      · left
        have hh := hothers "header" (by simp [sourcesOrder]) (by simp)
        simp [resolveSource, sourcesOrder, List.findSome?_cons, hp, hq, h1, hh]
      · right
        simp [resolveSource, sourcesOrder, List.findSome?_cons, hp, hq, h1]
    rcases List.mem_cons.1 hs with rfl | hs
    · have hp := hothers "param" (by simp [sourcesOrder]) (by simp)
      have hq := hothers "query" (by simp [sourcesOrder]) (by simp)
      have hf := hothers "form" (by simp [sourcesOrder]) (by simp)
      by_cases h1 : getParamValue c f "header" = ""
      · left
        simp [resolveSource, sourcesOrder, List.findSome?_cons, hp, hq, hf, h1]
      · right
        simp [resolveSource, sourcesOrder, List.findSome?_cons, hp, hq, hf, h1]
    simp at hs
  · intro v₀ v hset hp hq hok
    have hres : resolveSource c (f, v₀).1 = some ("query", getParamValue c f "query") := by
      simp [resolveSource, sourcesOrder, List.findSome?_cons, hp, hq]
    unfold bindOneParamField
    simp [hset, hres, hok]

/-- C2 witness: a field tagged for both query and header, with different
non-empty values in each, binds the query value. -/
theorem source_priority_resolution_witness :
    (getParamValue ⟨[], [("n", "fromquery")], [], [("n", "fromheader")], .empty⟩
        ⟨"N", [("query", "n"), ("header", "n")], .string, true⟩ "param" = "" ∧
     getParamValue ⟨[], [("n", "fromquery")], [], [("n", "fromheader")], .empty⟩
        ⟨"N", [("query", "n"), ("header", "n")], .string, true⟩ "query" = "fromquery" ∧
     getParamValue ⟨[], [("n", "fromquery")], [], [("n", "fromheader")], .empty⟩
        ⟨"N", [("query", "n"), ("header", "n")], .string, true⟩ "header" = "fromheader") ∧
    (bindOneParamField ⟨[], [("n", "fromquery")], [], [("n", "fromheader")], .empty⟩
        (⟨"N", [("query", "n"), ("header", "n")], .string, true⟩, GoType.string.zero)).1 =
      (⟨"N", [("query", "n"), ("header", "n")], .string, true⟩, .stringV "fromquery") := by
  refine ⟨⟨rfl, rfl, rfl⟩, ?_⟩
  exact (source_priority_resolution
      ⟨[], [("n", "fromquery")], [], [("n", "fromheader")], .empty⟩
      ⟨"N", [("query", "n"), ("header", "n")], .string, true⟩).2.2
    GoType.string.zero (.stringV "fromquery") rfl rfl (by decide) rfl

/-! ### C3: short-circuit on the body -/

/-- Claim-side predicate, following the spec's words: the body bytes are
syntactically valid JSON (empty bodies are handled before the parse and
never abort). -/
def syntacticallyValidJSON : Body → Bool
  | .malformed _ => false
  | _ => true

/-- Condition under which `json.Unmarshal` fills the `map[string]any`
envelope: the body is empty, or parses to an object or `null`. -/
def unmarshalsToMap : Body → Bool
  | .empty => true
  | .malformed _ => false
  | .wellFormed v => (unmarshalRawMap v).isOk

/-- C3 counterexample: a body consisting of the single JSON number `42`
is syntactically valid JSON, yet `Bind` aborts with the 400 transport
error, because the valid value does not unmarshal into the object
envelope; the claim's "only if the body is not syntactically valid JSON"
fails. -/
theorem bind_aborts_on_valid_nonobject_json :
    syntacticallyValidJSON (Body.wellFormed (.jnum 42)) = true ∧
    Bind ⟨[], [], [], [], .wellFormed (.jnum 42)⟩ [] [] =
      .error ⟨400, "invalid JSON: json: cannot unmarshal number into Go value of type map[string]interface \x7b\x7d"⟩ :=
  ⟨rfl, rfl⟩

/-- C3 amended: `Bind` aborts if and only if the non-empty body fails to
unmarshal into a JSON object map — i.e. it is syntactically invalid JSON
or its top-level value is neither an object nor `null`; the abort is
always a transport-level 400 error (never an aggregated `BindError`),
and it is the only way `Bind` fails. -/
theorem bind_short_circuit_characterization (c : EchoCtx)
    (iter : List (String × JValue)) (inst : List (GoField × GoValue)) :
    ((Bind c iter inst).isOk = false ↔ unmarshalsToMap c.body = false)
  ∧ (∀ e, Bind c iter inst = .error e → e.status = 400) := by
  cases hb : c.body with
  | empty =>
    unfold Bind BindBody
    rw [hb]
    simp [unmarshalsToMap, Except.isOk, Except.toBool]
  | malformed msg =>
    unfold Bind BindBody
    rw [hb]
    constructor
    · simp [unmarshalsToMap, Except.isOk, Except.toBool]
    · intro e he
      simp only [Except.error.injEq] at he
      rw [← he]
  | wellFormed v =>
    unfold Bind BindBody
    rw [hb]
    dsimp only []
    cases hu : unmarshalRawMap v with
    | error msg =>
      constructor
      · simp [unmarshalsToMap, hb, hu, Except.isOk, Except.toBool]
      · intro e he
        simp only [Except.error.injEq] at he
        rw [← he]
    | ok m =>
      constructor
      · simp [unmarshalsToMap, hb, hu, Except.isOk, Except.toBool]
      · intro e he
        simp at he

/-- C3 witness: on a syntactically malformed body the bind aborts, and
the abort error carries status 400. -/
theorem bind_short_circuit_characterization_witness :
    (Bind ⟨[], [], [], [], .malformed "unexpected end of JSON input"⟩ [] []).isOk = false ∧
    (⟨400, "invalid JSON: unexpected end of JSON input"⟩ : HTTPErrorM).status = 400 :=
  ⟨(bind_short_circuit_characterization
      ⟨[], [], [], [], .malformed "unexpected end of JSON input"⟩ [] []).1.mpr rfl,
   (bind_short_circuit_characterization
      ⟨[], [], [], [], .malformed "unexpected end of JSON input"⟩ [] []).2
     ⟨400, "invalid JSON: unexpected end of JSON input"⟩ rfl⟩

/-! ### C4: binding errors suppressing rule errors -/

/-- C4: evaluation at the failing input.  The field `UserID` has JSON tag
`user_id`; the body supplies a number for it, so binding records a
`LocatedError` on `user_id`.  The rule validator reports a `min`
violation on the same declared field, keyed by the Go field name
`UserID`; the suppression check compares `strings.ToLower("UserID") =
"userid"` against the binding-error name set `{"user_id"}`, misses, and
the rule error is appended — both errors for the one field appear in the
merged list, contradicting the suppression invariant the code's own
comment states ("Skip validation error if this field already has a
binding error"). -/
theorem bindAndValidate_misses_suppression :
    BindAndValidate ⟨[], [], [], [], .wellFormed (.jobj [("user_id", .jnum 5)])⟩
      [("user_id", .jnum 5)]
      [⟨"UserID", [("json", "user_id")], .string, true⟩]
      [⟨"UserID", "min", "3", true⟩] =
    .ok ([(⟨"UserID", [("json", "user_id")], .string, true⟩, .stringV "")],
         [{ field := some "user_id", error := "expected string but got number" },
          { field := some "userid", error := "must be at least 3 characters" }]) ∧
    fieldsWithBindingErrors
      [{ field := some "user_id", error := "expected string but got number" }] =
      ["user_id"] ∧
    goToLower "UserID" = "userid" :=
  ⟨rfl, rfl, rfl⟩

/-! ### C5: fixed-16-byte identifier coercion -/

/-- Whether a character is a hexadecimal digit. -/
def isHexChar (c : Char) : Bool := (hexVal c).isSome

/-- Byte values of consecutive hex character pairs, the claim's
"byte-pairs are decoded in order". -/
def hexPairsVal : List Char → List Nat
  | a :: b :: rest => (((hexVal a).getD 0) * 16 + ((hexVal b).getD 0)) :: hexPairsVal rest
  | _ => []

/-- Hex digits are not scan spaces. -/
theorem hex_not_space (c : Char) (h : isHexChar c = true) : fmtIsSpace c = false := by
  unfold fmtIsSpace
  apply decide_eq_false
  rintro (rfl | rfl | rfl | rfl | rfl | rfl) <;> exact absurd h (by decide)

/-- On an even-length all-hex character list the pair scan succeeds and
returns exactly the byte values of the pairs. -/
theorem scanBytePairs_allhex : (l : List Char) → l.all isHexChar = true →
    l.length % 2 = 0 → scanBytePairs l = some (hexPairsVal l)
  | [], _, _ => rfl
  | [_], _, hl => by simp at hl
  | a :: b :: rest, h, hl => by
    simp only [List.all_cons, Bool.and_eq_true] at h
    obtain ⟨ha, hb, hrest⟩ := h
    have hrec := scanBytePairs_allhex rest hrest (by
      simp only [List.length_cons] at hl
      omega)
    obtain ⟨va, hva⟩ := Option.isSome_iff_exists.1 ha
    obtain ⟨vb, hvb⟩ := Option.isSome_iff_exists.1 hb
    simp [scanBytePairs, scanByteHexPair, hex_not_space a ha, hva, hvb, hrec,
      hexPairsVal]

/-- C5 counterexample: the 32-character hyphen-free text
`0g000000000000000000000000000000` contains the non-hex character `g`,
yet coercion into the 16-byte identifier succeeds (with zero bytes):
`fmt.Sscanf` with `%02x` scans the pair `0g` as the single hex digit `0`
and ignores the unconsumed `g`.  The claim's "coercion succeeds exactly
when … 32 hexadecimal characters" fails in the only-if direction. -/
theorem parseUUID_accepts_nonhex_input :
    bindValue (.array 16 .uint8) "0g000000000000000000000000000000" =
      .ok (.arrayV [0, 0, 0, 0, 0, 0, 0, 0, 0, 0, 0, 0, 0, 0, 0, 0]) ∧
    ("0g000000000000000000000000000000".toList.filter (fun c => c ≠ '-')).length = 32 ∧
    (("0g000000000000000000000000000000".toList.filter (fun c => c ≠ '-')).all isHexChar) = false :=
  ⟨rfl, by decide, by decide⟩

/-- C5 amended: after stripping hyphens, (i) a text of exactly 32
hexadecimal characters always coerces successfully, with byte-pairs
decoded in order; (ii) any other length fails with `invalid UUID format`
and no partial value is written.  (When the length is 32 but a pair is
not two hex digits, the outcome follows Go's `%02x` scan semantics: a
pair whose first character is a hex digit succeeds on its maximal hex
prefix, so some non-hex texts are accepted — see the counterexample;
failure is still reported as `invalid UUID format`.) -/
theorem parseUUID_characterization :
    (∀ s : String, (s.toList.filter (fun c => c ≠ '-')).length = 32 →
      ((s.toList.filter (fun c => c ≠ '-')).all isHexChar) = true →
      bindValue (.array 16 .uint8) s =
        .ok (.arrayV (hexPairsVal (s.toList.filter (fun c => c ≠ '-')))))
  ∧ (∀ s : String, (s.toList.filter (fun c => c ≠ '-')).length ≠ 32 →
      bindValue (.array 16 .uint8) s = .error "invalid UUID format") := by
  constructor
  · intro s hlen hhex
    have hscan := scanBytePairs_allhex (s.toList.filter (fun c => c ≠ '-')) hhex
      (by rw [hlen])
    simp only [bindValue, parseUUID]
    rw [if_pos hlen, hscan]
    simp
  · intro s hlen
    simp only [bindValue, parseUUID]
    rw [if_neg hlen]
    simp

/-- C5 witness: a canonical hyphenated UUID coerces to its sixteen bytes
in order. -/
theorem parseUUID_characterization_witness :
    (("123e4567-e89b-12d3-a456-426614174000".toList.filter (fun c => c ≠ '-')).length = 32 ∧
     (("123e4567-e89b-12d3-a456-426614174000".toList.filter (fun c => c ≠ '-')).all isHexChar) = true) ∧
    bindValue (.array 16 .uint8) "123e4567-e89b-12d3-a456-426614174000" =
      .ok (.arrayV (hexPairsVal
        ("123e4567-e89b-12d3-a456-426614174000".toList.filter (fun c => c ≠ '-')))) :=
  ⟨⟨by decide, by decide⟩,
   (parseUUID_characterization).1 "123e4567-e89b-12d3-a456-426614174000"
     (by decide) (by decide)⟩

/-! ### C6: determinism of the bind -/

/-- Error list of a bind result, `none` on a transport abort. -/
def errsOf (r : Except HTTPErrorM (List (GoField × GoValue) × List BindError)) :
    Option (List BindError) :=
  match r with
  | .ok p => some p.2
  | .error _ => none

/-- Structural errors contributed by the body for a given iteration
order: empty unless the body is well-formed. -/
def bodyStructErrs (c : EchoCtx) (iter : List (String × JValue))
    (inst : List (GoField × GoValue)) : List BindError :=
  match c.body with
  | .wellFormed _ => validateJSONStructure (inst.map (fun fv => fv.1)) iter
  | _ => []

/-- C6 counterexample: the incoming JSON map `{"a":1,"b":2}` admits the
iteration orders `[a,b]` and `[b,a]` (Go randomizes map range order per
run), and the two orders — permutations of the same raw map — produce
different error lists, so two runs of `Bind` on bit-identical raw inputs
need not produce bit-identical outcomes. -/
theorem bind_output_depends_on_map_iteration_order :
    dedupLastWins [("a", .jnum 1), ("b", .jnum 2)] = [("a", .jnum 1), ("b", .jnum 2)] ∧
    List.Perm [(("a" : String), JValue.jnum 1), ("b", JValue.jnum 2)]
      [("b", JValue.jnum 2), ("a", JValue.jnum 1)] ∧
    errsOf (Bind ⟨[], [], [], [], .wellFormed (.jobj [("a", .jnum 1), ("b", .jnum 2)])⟩
        [("a", .jnum 1), ("b", .jnum 2)] []) ≠
      errsOf (Bind ⟨[], [], [], [], .wellFormed (.jobj [("a", .jnum 1), ("b", .jnum 2)])⟩
        [("b", .jnum 2), ("a", .jnum 1)] []) :=
  ⟨rfl, List.Perm.swap ("b", JValue.jnum 2) ("a", JValue.jnum 1) [], by decide⟩

/-- C6 amended: binding is deterministic up to the ordering of the
JSON-structural error group.  For two runs over the same raw inputs —
i.e. any two iteration orders of the same body map — the target values
are identical, each error list is the (identical, declaration-ordered)
source-field error group followed by the structural group, and the two
structural groups are permutations of each other.  With a fixed
iteration order the whole outcome is a pure function of the inputs. -/
theorem bind_deterministic_up_to_struct_order (c : EchoCtx)
    (iter₁ iter₂ : List (String × JValue)) (inst : List (GoField × GoValue))
    (out₁ out₂ : List (GoField × GoValue) × List BindError)
    (hp : iter₁.Perm iter₂)
    (h₁ : Bind c iter₁ inst = .ok out₁) (h₂ : Bind c iter₂ inst = .ok out₂) :
    out₁.1 = out₂.1 ∧
    out₁.2 = (BindParams c inst).2 ++ bodyStructErrs c iter₁ inst ∧
    out₂.2 = (BindParams c inst).2 ++ bodyStructErrs c iter₂ inst ∧
    (bodyStructErrs c iter₁ inst).Perm (bodyStructErrs c iter₂ inst) := by
  cases hb : c.body with
  | empty =>
    unfold Bind BindBody at h₁ h₂
    rw [hb] at h₁ h₂
    simp only [Except.ok.injEq] at h₁ h₂
    subst h₁
    subst h₂
    simp [bodyStructErrs, hb]
  | malformed msg =>
    unfold Bind BindBody at h₁
    rw [hb] at h₁
    simp at h₁
  | wellFormed v =>
    unfold Bind BindBody at h₁ h₂
    rw [hb] at h₁ h₂
    dsimp only [] at h₁ h₂
    cases hu : unmarshalRawMap v with
    | error msg =>
      rw [hu] at h₁
      simp at h₁
    | ok m =>
      rw [hu] at h₁ h₂
      simp only [Except.ok.injEq] at h₁ h₂
      subst h₁
      subst h₂
      refine ⟨rfl, ?_, ?_, ?_⟩
      · simp [bodyStructErrs, hb, validateJSONStructure, BindParams_fst_map]
      · simp [bodyStructErrs, hb, validateJSONStructure, BindParams_fst_map]
      · simp only [bodyStructErrs, hb, validateJSONStructure]
        exact List.Perm.filterMap _ hp

/-- C6 witness: with a one-entry body map the single iteration order is
a permutation of itself and the structural groups coincide. -/
theorem bind_determinism_witness :
    ([(("k" : String), JValue.jnull)].Perm [("k", JValue.jnull)]) ∧
    (bodyStructErrs ⟨[], [], [], [], .wellFormed (.jobj [("k", .jnull)])⟩
        [("k", .jnull)] []).Perm
      (bodyStructErrs ⟨[], [], [], [], .wellFormed (.jobj [("k", .jnull)])⟩
        [("k", .jnull)] []) := by
  constructor
  · exact List.Perm.refl _
  · have h := bind_deterministic_up_to_struct_order
      ⟨[], [], [], [], .wellFormed (.jobj [("k", .jnull)])⟩
      [("k", .jnull)] [("k", .jnull)] []
      ([], [{ field := some "k", error := "unknown field" }])
      ([], [{ field := some "k", error := "unknown field" }])
      (List.Perm.refl _) rfl rfl
    exact h.2.2.2

/-! ### C7: signed integer coercion -/

/-- C7 counterexample: the text `300` does not fit the declared width of
an `int8` field, yet coercion does not report an error — the wide
64-bit parse succeeds and `reflect.Value.SetInt` silently truncates to
`44` (two's-complement wrap), storing a corrupted value. -/
theorem int_narrowing_truncates_silently :
    bindValue GoType.int8 "300" = .ok (.intV 44) ∧
    signedFits 8 300 = false ∧ ((44 : Int) ≠ 300) :=
  ⟨rfl, by decide, by decide⟩

/-- C7 amended: for every signed-integer kind, coercion parses the raw
text in base 10 into the widest (64-bit) signed representation and then
narrows to the declared width; text that fails the wide parse (bad
syntax or outside the `int64` range) fails with `must be a valid
integer`, while a value that fits 64 bits but not the declared narrower
width is stored silently truncated (wrapped modulo `2^width`) instead of
being reported as an error. -/
theorem int_coercion_wide_then_narrow (t : GoType) (h : t.isIntKind = true)
    (raw : String) :
    (goParseInt64 raw = none → bindValue t raw = .error "must be a valid integer")
  ∧ (∀ v, goParseInt64 raw = some v →
      bindValue t raw = .ok (.intV (truncSigned t.intWidth v))) := by
  cases t <;> simp [GoType.isIntKind] at h <;>
    exact ⟨fun hn => by simp [bindValue, bindIntKind, hn],
           fun v hv => by simp [bindValue, bindIntKind, hv, GoType.intWidth]⟩

/-- C7 witness: coercing `300` into an `int8` field stores the wrapped
value `44`; the wide parse succeeded, so no error is reported. -/
theorem int_coercion_wide_then_narrow_witness :
    (GoType.int8.isIntKind = true ∧ goParseInt64 "300" = some 300) ∧
    bindValue .int8 "300" = .ok (.intV (truncSigned GoType.int8.intWidth 300)) ∧
    truncSigned GoType.int8.intWidth 300 = 44 :=
  ⟨⟨rfl, by decide⟩,
   (int_coercion_wide_then_narrow .int8 rfl "300").2 300 (by decide),
   by decide⟩

/-! ### C8: no partial field corruption -/

/-- Whether the body decode stage has an object entry that decodes into
the field at index `i`. -/
def bodyTouches (b : Body) (fields : List GoField) (i : Nat) : Bool :=
  match b with
  | .wellFormed (.jobj pairs) => pairs.any (fun kv => findFieldIdx fields kv.1 == some i)
  | _ => false

/-- A fresh instance carries the field list unchanged. -/
theorem zeroInst_fst_map (fields : List GoField) :
    (zeroInst fields).map (fun fv => fv.1) = fields := by
  simp only [zeroInst, List.map_map]
  exact List.map_id fields

/-- Indexing through `BindParams`. -/
theorem BindParams_get? (c : EchoCtx) (inst : List (GoField × GoValue)) (i : Nat) :
    (BindParams c inst).1.get? i = (inst.get? i).map (fun fv => (bindOneParamField c fv).1) := by
  show (inst.map _).get? i = _
  rw [List.get?_map]

/-- Indexing into a fresh instance. -/
theorem zeroInst_get? (fields : List GoField) (i : Nat) :
    (zeroInst fields).get? i = (fields.get? i).map (fun f => (f, f.ty.zero)) := by
  show (fields.map _).get? i = _
  rw [List.get?_map]

/-- A field no object entry maps to keeps its value through the decode
fold. -/
theorem decodeFieldFinal_not_touched (fields : List GoField)
    (pairs : List (String × JValue)) (i : Nat) (ty : GoType) (cur : GoValue)
    (h : ∀ kv ∈ pairs, findFieldIdx fields kv.1 ≠ some i) :
    decodeFieldFinal fields pairs i ty cur = cur := by
  induction pairs generalizing cur with
  | nil => rfl
  | cons kv rest ih =>
    have hkv : findFieldIdx fields kv.1 ≠ some i := h kv (List.mem_cons_self kv rest)
    show List.foldl _ _ (kv :: rest) = cur
    rw [List.foldl_cons]
    simp only [if_neg hkv]
    exact ih cur (fun kv2 hm => h kv2 (List.mem_cons_of_mem kv hm))

/-- Entry `j` of the decoded instance is entry `j` of the input with its
value pushed through `decodeFieldFinal` at absolute index `i₀ + j`. -/
theorem decodeInst_get? (fields : List GoField) (pairs : List (String × JValue)) :
    ∀ (inst : List (GoField × GoValue)) (i₀ j : Nat),
      (decodeInst fields pairs i₀ inst).get? j =
        (inst.get? j).map (fun fv => (fv.1, decodeFieldFinal fields pairs (i₀ + j) fv.1.ty fv.2))
  | [], _, j => by cases j <;> rfl
  | fv :: rest, i₀, 0 => by simp [decodeInst]
  | fv :: rest, i₀, j + 1 => by
    have harith : i₀ + 1 + j = i₀ + (j + 1) := by omega
    simp only [decodeInst, List.get?_cons_succ]
    rw [decodeInst_get? fields pairs rest (i₀ + 1) j, harith]

/-- C8 counterexample: a field tagged `param:"age" json:"age"` whose
path-param coercion fails is nevertheless populated by the best-effort
body decode (`json.Unmarshal` knows nothing of the param tag), so after
the whole bind its value is `5`, not its zero value, even though its
scalar coercion failed and recorded an error. -/
theorem failed_coercion_field_not_zero_after_bind :
    paramFails ⟨[("age", "abc")], [], [], [], .wellFormed (.jobj [("age", .jnum 5)])⟩
      (⟨"Age", [("param", "age"), ("json", "age")], .int, true⟩, GoType.int.zero) = true ∧
    Bind ⟨[("age", "abc")], [], [], [], .wellFormed (.jobj [("age", .jnum 5)])⟩
      [("age", .jnum 5)]
      (zeroInst [⟨"Age", [("param", "age"), ("json", "age")], .int, true⟩]) =
      .ok ([(⟨"Age", [("param", "age"), ("json", "age")], .int, true⟩, .intV 5)],
           [{ param := some "age", error := "must be a valid integer" },
            { field := some "age", error := "unknown field" }]) ∧
    GoValue.intV 5 ≠ GoType.int.zero := by
  refine ⟨rfl, rfl, ?_⟩
  intro h
  injection h with h5
  exact absurd h5 (by decide)

/-- C8 amended: a failed scalar coercion itself never writes — the field
keeps the value it had (its zero, on a fresh target) through the sourced
binding stage; and after the whole bind the field still holds its zero
value provided the JSON body does not separately supply an entry
decoding into that same field (without that proviso the body decode can
repopulate it, as the counterexample shows). -/
theorem failed_coercion_writes_nothing :
    (∀ (c : EchoCtx) (fv : GoField × GoValue),
      paramFails c fv = true → (bindOneParamField c fv).1 = fv)
  ∧ (∀ (c : EchoCtx) (iter : List (String × JValue)) (fields : List GoField)
      (i : Nat) (f : GoField) (out : List (GoField × GoValue) × List BindError),
      Bind c iter (zeroInst fields) = .ok out →
      fields.get? i = some f →
      paramFails c (f, f.ty.zero) = true →
      bodyTouches c.body fields i = false →
      out.1.get? i = some (f, f.ty.zero)) := by
  have keep : ∀ (c : EchoCtx) (fv : GoField × GoValue),
      paramFails c fv = true → (bindOneParamField c fv).1 = fv := by
    intro c fv hf
    unfold paramFails at hf
    obtain ⟨e, he⟩ := Option.isSome_iff_exists.1 hf
    exact bindOneParamField_error_keeps c fv e he
  refine ⟨keep, ?_⟩
  intro c iter fields i f out h hget hfail htouch
  have hbound : (BindParams c (zeroInst fields)).1.get? i = some (f, f.ty.zero) := by
    rw [BindParams_get?, zeroInst_get?, hget]
    show some ((bindOneParamField c (f, f.ty.zero)).1) = _
    rw [keep c (f, f.ty.zero) hfail]
  have hfieldsEq : (BindParams c (zeroInst fields)).1.map (fun fv => fv.1) = fields := by
    rw [BindParams_fst_map, zeroInst_fst_map]
  cases hb : c.body with
  | empty =>
    unfold Bind BindBody at h
    rw [hb] at h
    simp only [Except.ok.injEq] at h
    subst h
    exact hbound
  | malformed msg =>
    unfold Bind BindBody at h
    rw [hb] at h
    simp at h
  | wellFormed v =>
    unfold Bind BindBody at h
    rw [hb] at h
    dsimp only [] at h
    cases hu : unmarshalRawMap v with
    | error msg =>
      rw [hu] at h
      simp at h
    | ok m =>
      rw [hu] at h
      simp only [Except.ok.injEq] at h
      subst h
      cases v with
      | jobj pairs =>
        have htouch2 : pairs.any (fun kv => findFieldIdx fields kv.1 == some i) = false := by
          rw [hb] at htouch
          exact htouch
        have hnot : ∀ kv ∈ pairs, findFieldIdx fields kv.1 ≠ some i := by
          intro kv hm hcontra
          have h1 : pairs.any (fun kv => findFieldIdx fields kv.1 == some i) = true :=
            List.any_eq_true.2 ⟨kv, hm, by simp [hcontra]⟩
          rw [h1] at htouch2
          exact Bool.noConfusion htouch2
        show (decodeInst _ pairs 0 (BindParams c (zeroInst fields)).1).get? i = _
        rw [hfieldsEq, decodeInst_get? fields pairs _ 0 i, hbound]
        show some ((f, decodeFieldFinal fields pairs (0 + i) f.ty f.ty.zero)) = _
        rw [Nat.zero_add, decodeFieldFinal_not_touched fields pairs i f.ty f.ty.zero hnot]
      | jnull => exact hbound
      | jbool b => simp [unmarshalRawMap] at hu
      | jnum n => simp [unmarshalRawMap] at hu
      | jstr s => simp [unmarshalRawMap] at hu
      | jarr xs => simp [unmarshalRawMap] at hu

/-- C8 witness: with an empty body, the field whose coercion of the raw
text `abc` failed still holds its zero value after the whole bind. -/
theorem failed_coercion_writes_nothing_witness :
    (Bind ⟨[("age", "abc")], [], [], [], .empty⟩ []
        (zeroInst [⟨"Age", [("param", "age")], .int, true⟩]) =
      .ok ([(⟨"Age", [("param", "age")], .int, true⟩, .intV 0)],
           [{ param := some "age", error := "must be a valid integer" }]) ∧
     paramFails ⟨[("age", "abc")], [], [], [], .empty⟩
        (⟨"Age", [("param", "age")], .int, true⟩, GoType.int.zero) = true ∧
     bodyTouches Body.empty [⟨"Age", [("param", "age")], .int, true⟩] 0 = false) ∧
    (([(⟨"Age", [("param", "age")], GoType.int, true⟩, GoValue.intV 0)] :
        List (GoField × GoValue)).get? 0 =
      some ((⟨"Age", [("param", "age")], GoType.int, true⟩ : GoField),
        (⟨"Age", [("param", "age")], GoType.int, true⟩ : GoField).ty.zero)) := by
  refine ⟨⟨rfl, rfl, rfl⟩, ?_⟩
  exact (failed_coercion_writes_nothing).2
    ⟨[("age", "abc")], [], [], [], .empty⟩ []
    [⟨"Age", [("param", "age")], .int, true⟩] 0
    ⟨"Age", [("param", "age")], .int, true⟩
    ([(⟨"Age", [("param", "age")], .int, true⟩, .intV 0)],
     [{ param := some "age", error := "must be a valid integer" }])
    rfl rfl rfl rfl

/-! ### C9: located error well-formedness -/

/-- Number of populated location selectors of one error. -/
def selectorCount (e : BindError) : Nat :=
  [e.param, e.query, e.field, e.form, e.header].countP (fun o => o.isSome)

/-- C9 counterexample: structural validation stores the JSON key
verbatim in the error; the key `Extra` produces an unknown-field error
whose name is not lower-cased, contradicting "the field name stored in
the populated selector is lower-cased". -/
theorem struct_error_name_not_lowercased :
    validateJSONStructure [] [("Extra", .jnum 1)] =
      [{ field := some "Extra", error := "unknown field" }] ∧
    goToLower "Extra" ≠ "Extra" :=
  ⟨rfl, by decide⟩

/-- C9 amended: every located error has exactly one populated selector.
Errors built by `createFieldError` (sourced-field binding errors and
rule errors) also store a lower-cased name; errors built directly by
structural validation populate the Field selector with the incoming JSON
key verbatim (not lower-cased). -/
theorem located_error_well_formed :
    (∀ name msg src, src ∈ ["param", "query", "form", "header", "json"] →
      selectorCount (createFieldError name msg src) = 1 ∧
      namesOf (createFieldError name msg src) = [goToLower name])
  ∧ (∀ (fields : List GoField) (iter : List (String × JValue)) (e : BindError),
      e ∈ validateJSONStructure fields iter →
      selectorCount e = 1 ∧ ∃ k, e.field = some k) := by
  constructor
  · intro name msg src hsrc
    simp only [List.mem_cons, List.not_mem_nil, or_false] at hsrc
    rcases hsrc with rfl | rfl | rfl | rfl | rfl
    · exact ⟨rfl, rfl⟩
    · exact ⟨rfl, rfl⟩
    · exact ⟨rfl, rfl⟩
    · exact ⟨rfl, rfl⟩
    · exact ⟨rfl, rfl⟩
  · intro fields iter e he
    obtain ⟨kv, _, hkv⟩ := List.mem_filterMap.1 he
    unfold structCheck at hkv
    cases hl : mapLookup (getJSONFields fields) kv.1 with
    | none =>
      rw [hl] at hkv
      simp only [Option.some.injEq] at hkv
      subst hkv
      exact ⟨rfl, kv.1, rfl⟩
    | some t =>
      rw [hl] at hkv
      by_cases hcomp : isTypeCompatible t kv.2 = true
      · simp [hcomp] at hkv
      · simp only [hcomp, Bool.false_eq_true, if_false, Option.some.injEq] at hkv
        subst hkv
        exact ⟨rfl, kv.1, rfl⟩

/-- C9 witness: a param-sourced error for field name `Age` has exactly
one selector, holding `age`; a structural error has exactly one selector
holding the raw key. -/
theorem located_error_well_formed_witness :
    (selectorCount (createFieldError "Age" "m" "param") = 1 ∧
     namesOf (createFieldError "Age" "m" "param") = [goToLower "Age"]) ∧
    (selectorCount { field := some "Extra", error := "unknown field" } = 1 ∧
     ∃ k, ({ field := some "Extra", error := "unknown field" } : BindError).field = some k) :=
  ⟨(located_error_well_formed).1 "Age" "m" "param" (by simp),
   (located_error_well_formed).2 [] [("Extra", .jnum 1)]
     { field := some "Extra", error := "unknown field" } (by simp [validateJSONStructure, structCheck, mapLookup, getJSONFields])⟩

/-! ### C10: null is always a type mismatch -/

/-- Coarse classification of a declared kind into the five JSON classes,
`none` for kinds outside them (the claim's "classifies as string,
number, boolean, array, or object"). -/
def coarseClass : GoType → Option String
  | .string => some "string"
  | .int | .int8 | .int16 | .int32 | .int64
  | .uint | .uint8 | .uint16 | .uint32 | .uint64
  | .float32 | .float64 => some "number"
  | .bool => some "boolean"
  | .slice _ => some "array"
  | .array _ _ => some "array"
  | .structT => some "object"
  | .mapT => some "object"
  | _ => none

/-- A classified kind is incompatible with `null` and names its class. -/
theorem coarseClass_null_mismatch (t : GoType) (s : String)
    (hc : coarseClass t = some s) :
    isTypeCompatible t .jnull = false ∧ getTypeString t = s := by
  cases t <;> simp only [coarseClass, Option.some.injEq] at hc <;>
    first
    | exact ⟨rfl, hc⟩
    | exact absurd hc (by simp)

/-- C10: for every JSON-bound field whose declared type — after the
pointer unwrap performed by `getJSONFields` — classifies as one of the
five JSON classes, a `null` supplied for that key yields the located
error `expected <class> but got null`; this includes pointer-typed
(optional) fields, for which the best-effort decoder would happily turn
`null` into absence. -/
theorem null_always_type_mismatch (fields : List GoField)
    (iter : List (String × JValue)) (k : String) (t : GoType) (s : String)
    (hl : mapLookup (getJSONFields fields) k = some t)
    (hc : coarseClass t = some s)
    (hin : (k, JValue.jnull) ∈ iter) :
    ({ field := some k, error := "expected " ++ s ++ " but got null" } : BindError) ∈
      validateJSONStructure fields iter ∧
    (∀ t2 : GoType, decodeJSON (.ptr t2) .jnull = some (.ptrV none)) := by
  constructor
  · apply List.mem_filterMap.2
    refine ⟨(k, JValue.jnull), hin, ?_⟩
    unfold structCheck
    rw [hl]
    obtain ⟨hcomp, hname⟩ := coarseClass_null_mismatch t s hc
    dsimp only []
    simp [hcomp, hname, getJSONType, String.append_assoc]
  · intro t2
    rfl

/-- C10 witness: an optional (pointer-to-string) JSON field receiving
`null` gets the error `expected string but got null`, even though the
decoder would accept the null as absence. -/
theorem null_always_type_mismatch_witness :
    (mapLookup (getJSONFields [⟨"Name", [("json", "name")], .ptr .string, true⟩]) "name" =
      some GoType.string ∧
     coarseClass GoType.string = some "string") ∧
    ({ field := some "name", error := "expected string but got null" } : BindError) ∈
      validateJSONStructure [⟨"Name", [("json", "name")], .ptr .string, true⟩]
        [("name", JValue.jnull)] :=
  ⟨⟨rfl, rfl⟩,
   (null_always_type_mismatch [⟨"Name", [("json", "name")], .ptr .string, true⟩]
     [("name", JValue.jnull)] "name" GoType.string "string" rfl rfl
     (List.mem_singleton.2 rfl)).1⟩

end Tasker
